import Mathlib

/-!
Shallow embedding of the Vision Transformer implementation in `src/vit.py`.

Scalars are modelled as rationals (`ℚ`).  Engine primitives whose exact values
are irrational or environment-supplied are parameters of the embedding:

* `erf`, `erfinv`, `sqrt2` — the error function, its inverse and `math.sqrt 2.`
  used by the truncated-normal initializer;
* `u` — the stream of unit-uniform random draws behind `tensor.uniform_`;
* `expQ` — the exponential behind `nn.Softmax` (positive everywhere);
* `scale` — the stored value of `dim_head ** -0.5` in `Attention.__init__`;
* `bicubicVal` — the bicubic resampling kernel of `nn.functional.interpolate`
  (its output *shape* is modelled exactly, its values are engine-supplied);
* dropout masks — `nn.Dropout` multiplies elementwise by a (random) mask,
  which is the identity mask at inference time.

Tensors are modelled as explicit shape data together with a total data
function; an operation reads data only inside the bounds given by the shapes,
exactly as the corresponding `torch` operation contracts over the shapes of
its arguments.  Fallible steps (`reshape`, the `assert`, broadcasting of
`+=`, `math.sqrt` of a negative number) return `Except VErr`.
-/

/-- A rank-2 tensor `(b, d)` with a total data function. -/
structure Tensor2 where
  b : ℕ
  d : ℕ
  data : ℕ → ℕ → ℚ

/-- A rank-3 tensor `(b, n, d)` with a total data function. -/
structure Tensor3 where
  b : ℕ
  n : ℕ
  d : ℕ
  data : ℕ → ℕ → ℕ → ℚ

/-- A rank-4 tensor `(d0, d1, d2, d3)` with a total data function. -/
structure Tensor4 where
  d0 : ℕ
  d1 : ℕ
  d2 : ℕ
  d3 : ℕ
  data : ℕ → ℕ → ℕ → ℕ → ℚ

/-- Failure modes of the fallible steps of `ViT.interpolate_pos_encoding` and
`ViT.forward`: `math.sqrt` of a negative argument, a `reshape` whose element
count does not match, the hard `assert` of the interpolation path, and an
incompatible broadcast in `x += pos`. -/
inductive VErr where
  | sqrtDomain
  | reshapeMismatch
  | assertFail
  | broadcastMismatch
deriving DecidableEq

/-! ## `pair` and the patch count of `ViT.__init__` (src/vit.py lines 9-10, 123-125)

A Python argument that is either a scalar or a 2-tuple is modelled as a sum
type; `isinstance(t, tuple)` is the pattern match. -/

/-- `pair(t)`: `t if isinstance(t, tuple) else (t, t)` (src/vit.py line 10). -/
def pair : ℕ ⊕ ℕ × ℕ → ℕ × ℕ
  | Sum.inl t => (t, t)
  | Sum.inr p => p

/-- `num_patches = (image_height // patch_height) * (image_width // patch_width)`
computed by `ViT.__init__` from `pair(image_size)` and `pair(patch_size)`
(src/vit.py lines 123-125); `//` on nonnegative Python ints is `Nat` floor
division. -/
def ViT.num_patches (image_size patch_size : ℕ ⊕ ℕ × ℕ) : ℕ :=
  ((pair image_size).1 / (pair patch_size).1) *
    ((pair image_size).2 / (pair patch_size).2)

/-! ## Truncated-normal initializer (src/vit.py lines 12-50) -/

/-- `tensor.clamp_(min=a, max=b)`: pointwise `min (max x a) b`. -/
def clampQ (a b x : ℚ) : ℚ := min (max x a) b

/-- `norm_cdf(x) = (1 + erf(x / sqrt(2))) / 2` (src/vit.py lines 20-22), with
the error function and `math.sqrt(2.)` as engine parameters. -/
def norm_cdf (erf : ℚ → ℚ) (sqrt2 : ℚ) (x : ℚ) : ℚ := (1 + erf (x / sqrt2)) / 2

/-- The warning test of `_no_grad_trunc_normal_` (src/vit.py line 24):
`(mean < a - 2 * std) or (mean > b + 2 * std)`. -/
def trunc_normal_warns (mean std a b : ℚ) : Bool :=
  decide (mean < a - 2 * std) || decide (mean > b + 2 * std)

/-- `_no_grad_trunc_normal_(tensor, mean, std, a, b)` (src/vit.py lines 17-50).
Returns the warning flag together with the new contents of the tensor.  The
tensor is a flat list of its elements; `tensor.uniform_(2l-1, 2u-1)` draws, for
element `i`, the value `(2l-1) + u i * ((2u'-1) - (2l-1))` from the unit-uniform
stream `u`.  Then `erfinv_`, `mul_(std * sqrt(2))`, `add_(mean)` and
`clamp_(min=a, max=b)` are applied in place, elementwise. -/
def _no_grad_trunc_normal_ (erf erfinv : ℚ → ℚ) (sqrt2 : ℚ) (u : ℕ → ℚ)
    (t : List ℚ) (mean std a b : ℚ) : Bool × List ℚ :=
  let warned := trunc_normal_warns mean std a b
  let l := norm_cdf erf sqrt2 ((a - mean) / std)
  let up := norm_cdf erf sqrt2 ((b - mean) / std)
  (warned,
    (List.range t.length).map fun i =>
      let sample := (2 * l - 1) + u i * ((2 * up - 1) - (2 * l - 1))
      clampQ a b (erfinv sample * (std * sqrt2) + mean))

/-- `trunc_normal_(tensor, mean, std, a, b)` (src/vit.py lines 12-14). -/
def trunc_normal_ (erf erfinv : ℚ → ℚ) (sqrt2 : ℚ) (u : ℕ → ℚ)
    (t : List ℚ) (mean std a b : ℚ) : Bool × List ℚ :=
  _no_grad_trunc_normal_ erf erfinv sqrt2 u t mean std a b

/-! ## `ViT._init_weights` (src/vit.py lines 141-148)

The `isinstance` dispatch over module kinds is a sum type; a module carries
its parameter tensors as flat lists.  `nn.Conv2d` (the projection inside
`ConvProjection`) and every other non-`Linear`, non-`LayerNorm` module fall
through both branches untouched. -/

/-- The module kinds `ViT._init_weights` can receive, with their parameters. -/
inductive NNModule where
  | linear (weight : List ℚ) (bias : Option (List ℚ))
  | layerNorm (weight : List ℚ) (bias : List ℚ)
  | conv2d (weight : List ℚ) (bias : Option (List ℚ))
  | other (params : List ℚ)

/-- `ViT._init_weights(m)` (src/vit.py lines 141-148): `nn.Linear` weights get
`trunc_normal_(std=.02)` (so `mean=0., a=-2., b=2.` by default) and a present
bias is zeroed; `nn.LayerNorm` gets unit weight and zero bias; any other
module is returned unchanged. -/
def ViT._init_weights (erf erfinv : ℚ → ℚ) (sqrt2 : ℚ) (u : ℕ → ℚ) :
    NNModule → NNModule
  | NNModule.linear w bias =>
      NNModule.linear (trunc_normal_ erf erfinv sqrt2 u w 0 (2/100) (-2) 2).2
        (bias.map (List.map fun _ => (0 : ℚ)))
  | NNModule.layerNorm w bias =>
      NNModule.layerNorm (w.map fun _ => (1 : ℚ)) (bias.map fun _ => (0 : ℚ))
  | m => m

/-! ## `ViT.interpolate_pos_encoding` (src/vit.py lines 149-172)

The function receives the embedded sequence `x` only through `x.shape[1]`
(`xN` below) and `x.shape[-1]` (`xD`), plus the actual image extents `w, h`.
`num_patches` and `N` are Python ints, so the comparison is over `ℤ`.
On the general path the stored patch grid is reshaped to
`(1, int(math.sqrt(N)), int(math.sqrt(N)), dim)` — which raises when the
element count does not match — and resized by
`nn.functional.interpolate(..., scale_factor=(h0/math.sqrt(N), w0/math.sqrt(N)),
mode=bicubic)` after `h0, w0` got the `+ 0.1` nudge; the resized spatial size
is `floor(input_size * scale_factor)`.  `int(math.sqrt N)` is `Nat.sqrt N`,
and the scale denominator `math.sqrt N` is modelled by the same `Nat.sqrt N`
(exact whenever `N` is a perfect square, the only case in which the reshape
can succeed with matching feature widths).  The trailing `assert` compares
`int(h0) = h // patch_height` (truncation of the nudged float) with the
resized extents and aborts on mismatch.  Bicubic sample values are supplied
by the engine parameter `bicubicVal : feature → row → column → ℚ`; the
reattached class-token vector sits at sequence position 0 and the resized
grid follows in row-major order (`permute(0, 2, 3, 1).view(1, -1, dim)`). -/

/-- `ViT.interpolate_pos_encoding(x, w, h)` (src/vit.py lines 149-172). -/
def ViT.interpolate_pos_encoding (bicubicVal : ℕ → ℕ → ℕ → ℚ)
    (pos_embedding : Tensor3) (patch_height patch_width : ℕ)
    (xN xD w h : ℕ) : Except VErr Tensor3 :=
  if (xN : ℤ) - 1 = (pos_embedding.n : ℤ) - 1 ∧ w = h then
    Except.ok pos_embedding
  else if (pos_embedding.n : ℤ) - 1 < 0 then
    Except.error VErr.sqrtDomain
  else
    let s : ℕ := Nat.sqrt (pos_embedding.n - 1)
    let h0 : ℕ := h / patch_height
    let w0 : ℕ := w / patch_width
    if (pos_embedding.n - 1) * pos_embedding.d ≠ s * s * xD then
      Except.error VErr.reshapeMismatch
    else
      let outH : ℕ := (⌊(s : ℚ) * (((h0 : ℚ) + 1/10) / (s : ℚ))⌋).toNat
      let outW : ℕ := (⌊(s : ℚ) * (((w0 : ℚ) + 1/10) / (s : ℚ))⌋).toNat
      if h0 ≠ outH ∨ w0 ≠ outW then
        Except.error VErr.assertFail
      else
        Except.ok ⟨1, 1 + outH * outW, xD, fun _ nn dd =>
          if nn = 0 then pos_embedding.data 0 0 dd
          else bicubicVal dd ((nn - 1) / outW) ((nn - 1) % outW)⟩

/-- `Nat.sqrt 2 = 1`, the truncated square root taken by the interpolation
path of a stored grid of two patches. -/
theorem natSqrt_two_eq_one : Nat.sqrt 2 = 1 :=
  (Nat.eq_sqrt.mpr (by norm_num)).symm

/-! ## Claim C10 -/

/-- C10: `pair` maps a non-tuple argument `t` to `(t, t)` and returns a tuple
argument unchanged, and the constructor stores
`(image_height // patch_height) * (image_width // patch_width)` patches,
computed from the resulting pairs by integer floor division (which on `ℕ` is
floor division by definition). -/
theorem C10_theorem (t : ℕ) (p : ℕ × ℕ) (image_size patch_size : ℕ ⊕ ℕ × ℕ)
    (ih iw ph pw : ℕ) (hi : pair image_size = (ih, iw))
    (hp : pair patch_size = (ph, pw)) :
    pair (Sum.inl t) = (t, t) ∧ pair (Sum.inr p) = p ∧
      ViT.num_patches image_size patch_size = (ih / ph) * (iw / pw) := by
  refine ⟨rfl, rfl, ?_⟩
  simp [ViT.num_patches, hi, hp]

/-- Witness for C10 at a concrete configuration: `image_size = 224` (a scalar,
read as a square image), `patch_size = (16, 16)`, giving `14 * 14 = 196`
patches. -/
theorem C10_witness :
    pair (Sum.inl 7) = (7, 7) ∧ pair (Sum.inr (3, 5)) = (3, 5) ∧
      ViT.num_patches (Sum.inl 224) (Sum.inr (16, 16)) = (224 / 16) * (224 / 16) :=
  C10_theorem 7 (3, 5) (Sum.inl 224) (Sum.inr (16, 16)) 224 224 16 16 rfl rfl

/-! ## Claim C6 -/

/-- C6: for every tensor and parameters with `a ≤ b`, `_no_grad_trunc_normal_`
(always total, hence raising nothing) produces only values inside `[a, b]` —
the final `clamp_` enforces this — and its only diagnostic is the warning
flag, raised exactly when the mean is more than two standard deviations
outside `[a, b]`. -/
theorem C6_theorem (erf erfinv : ℚ → ℚ) (sqrt2 : ℚ) (u : ℕ → ℚ)
    (t : List ℚ) (mean std a b v : ℚ) (hab : a ≤ b) :
    ((_no_grad_trunc_normal_ erf erfinv sqrt2 u t mean std a b).1 = true ↔
      mean < a - 2 * std ∨ mean > b + 2 * std) ∧
    (v ∈ (_no_grad_trunc_normal_ erf erfinv sqrt2 u t mean std a b).2 →
      a ≤ v ∧ v ≤ b) := by
  constructor
  · simp [_no_grad_trunc_normal_, trunc_normal_warns]
  · intro hv
    simp only [_no_grad_trunc_normal_, List.mem_map] at hv
    obtain ⟨i, -, hi⟩ := hv
    subst hi
    unfold clampQ
    exact ⟨le_min (le_max_right _ _) hab, min_le_right _ _⟩

/-- Witness for C6 at concrete parameters: one-element tensor, `mean = 0`,
`std = 1`, bounds `[-2, 2]`, identity engine functions and a constant-zero
uniform stream.  No warning is raised and the produced value lies in the
bounds. -/
theorem C6_witness :
    ((_no_grad_trunc_normal_ id id 1 (fun _ => 0) [5] 0 1 (-2) 2).1 = true ↔
      (0 : ℚ) < -2 - 2 * 1 ∨ (0 : ℚ) > 2 + 2 * 1) ∧
    ((-2 : ℚ) ∈ (_no_grad_trunc_normal_ id id 1 (fun _ => 0) [5] 0 1 (-2) 2).2 →
      (-2 : ℚ) ≤ -2 ∧ (-2 : ℚ) ≤ 2) :=
  C6_theorem id id 1 (fun _ => 0) [5] 0 1 (-2) 2 (-2) (by norm_num)

/-! ## Claim C9 -/

/-- C9: `ViT._init_weights` rewrites parameters only of `nn.Linear` modules
(truncated-normal weight with `std = .02` and zeroed bias when present) and of
`nn.LayerNorm` modules (unit weight, zero bias); `nn.Conv2d` — the projection
of the convolutional patch-embedding variant — and every other module kind
are returned with all parameters unchanged, so the convolutional projection
never receives the truncated-normal initialization. -/
theorem C9_theorem (erf erfinv : ℚ → ℚ) (sqrt2 : ℚ) (u : ℕ → ℚ)
    (w bn : List ℚ) (bias : Option (List ℚ)) (p : List ℚ) :
    ViT._init_weights erf erfinv sqrt2 u (NNModule.conv2d w bias) =
        NNModule.conv2d w bias ∧
    ViT._init_weights erf erfinv sqrt2 u (NNModule.other p) =
        NNModule.other p ∧
    ViT._init_weights erf erfinv sqrt2 u (NNModule.linear w bias) =
        NNModule.linear (trunc_normal_ erf erfinv sqrt2 u w 0 (2/100) (-2) 2).2
          (bias.map (List.map fun _ => (0 : ℚ))) ∧
    ViT._init_weights erf erfinv sqrt2 u (NNModule.layerNorm w bn) =
        NNModule.layerNorm (w.map fun _ => (1 : ℚ)) (bn.map fun _ => (0 : ℚ)) :=
  ⟨rfl, rfl, rfl, rfl⟩

/-! ## Claim C2 -/

/-- C2 counterexample: a valid non-square configuration, `image_size = (32, 16)`
with `patch_size = 16`, stores `N = 2` positional patches.  At the training
resolution the input has spatial extents `(32, 16)`, the embedded sequence has
`2 + 1 = 3` positions — yet `interpolate_pos_encoding` does **not** return the
stored parameter: since `w ≠ h` the fast path is skipped and the general path
aborts in `reshape` (`2` patch vectors cannot form an
`int(sqrt 2) × int(sqrt 2) = 1 × 1` grid). -/
theorem C2_counterexample :
    ViT.interpolate_pos_encoding (fun _ _ _ => 0)
        ⟨1, 3, 1, fun _ _ _ => 0⟩ 16 16 3 1 32 16 ≠
      Except.ok ⟨1, 3, 1, fun _ _ _ => 0⟩ := by
  have h : ViT.interpolate_pos_encoding (fun _ _ _ => 0)
      ⟨1, 3, 1, fun _ _ _ => 0⟩ 16 16 3 1 32 16 =
      Except.error VErr.reshapeMismatch := by
    simp [ViT.interpolate_pos_encoding, natSqrt_two_eq_one]
  rw [h]
  simp

/-- C2 (amended): `interpolate_pos_encoding` returns the stored
positional-embedding parameter itself, unchanged, exactly on the fast path:
when the patch count of the embedded sequence equals the stored patch count
**and** the input width equals the input height.  For a non-square input —
in particular for a non-square configured image size at its own training
resolution — the general (interpolating) path runs instead. -/
theorem C2_theorem (bicubicVal : ℕ → ℕ → ℕ → ℚ) (pos : Tensor3)
    (ph pw xN xD w h : ℕ)
    (hmatch : (xN : ℤ) - 1 = (pos.n : ℤ) - 1) (hwh : w = h) :
    ViT.interpolate_pos_encoding bicubicVal pos ph pw xN xD w h =
      Except.ok pos := by
  unfold ViT.interpolate_pos_encoding
  rw [if_pos ⟨hmatch, hwh⟩]

/-- Witness for C2 at a concrete square configuration: `2 × 2` image, `1 × 1`
patches, input at the training resolution. -/
theorem C2_witness :
    ViT.interpolate_pos_encoding (fun _ _ _ => 0)
        ⟨1, 5, 3, fun _ _ _ => 0⟩ 1 1 5 3 2 2 =
      Except.ok ⟨1, 5, 3, fun _ _ _ => 0⟩ :=
  C2_theorem (fun _ _ _ => 0) ⟨1, 5, 3, fun _ _ _ => 0⟩ 1 1 5 3 2 2 rfl rfl

/-! ## Claim C3 -/

/-- C3 counterexample: the claim states that on the general path the function
either returns a sequence of length `(h // patch_height) * (w // patch_width) + 1`
or aborts with the assertion failure.  With the stored patch count `N = 2`
(a valid `(32, 16)/16` configuration) and a `2 × 2` input, the general path
does neither: it aborts in `reshape` — a `RuntimeError`, not the `assert` —
because `2` is not a perfect square. -/
theorem C3_counterexample :
    ¬((∃ t, ViT.interpolate_pos_encoding (fun _ _ _ => 0)
          ⟨1, 3, 2, fun _ _ _ => 0⟩ 1 1 5 2 2 2 = Except.ok t ∧
          t.n = (2 / 1) * (2 / 1) + 1) ∨
      ViT.interpolate_pos_encoding (fun _ _ _ => 0)
          ⟨1, 3, 2, fun _ _ _ => 0⟩ 1 1 5 2 2 2 =
        Except.error VErr.assertFail) := by
  have h : ViT.interpolate_pos_encoding (fun _ _ _ => 0)
      ⟨1, 3, 2, fun _ _ _ => 0⟩ 1 1 5 2 2 2 =
      Except.error VErr.reshapeMismatch := by
    simp [ViT.interpolate_pos_encoding, natSqrt_two_eq_one]
  rw [h]
  simp

/-- C3 (amended): on the general (interpolating) path, with at least one
stored positional patch, `interpolate_pos_encoding` either returns a tensor
whose sequence length is `(h // patch_height) * (w // patch_width) + 1`, or
aborts — with the hard assertion failure when the resized grid extents do not
equal the integer-truncated targets, or with a reshape failure when the
stored patch count is not a perfect square.  A mismatch is never silently
tolerated: no successful return has any other sequence length. -/
theorem C3_theorem (bicubicVal : ℕ → ℕ → ℕ → ℚ) (pos : Tensor3)
    (ph pw xN xD w h : ℕ) (hN : 2 ≤ pos.n)
    (hgen : ¬((xN : ℤ) - 1 = (pos.n : ℤ) - 1 ∧ w = h)) :
    (∃ t, ViT.interpolate_pos_encoding bicubicVal pos ph pw xN xD w h =
        Except.ok t ∧ t.n = (h / ph) * (w / pw) + 1) ∨
    (∃ e, ViT.interpolate_pos_encoding bicubicVal pos ph pw xN xD w h =
        Except.error e) := by
  unfold ViT.interpolate_pos_encoding
  rw [if_neg hgen, if_neg (by omega)]
  by_cases hre : (pos.n - 1) * pos.d ≠
      Nat.sqrt (pos.n - 1) * Nat.sqrt (pos.n - 1) * xD
  · rw [if_pos hre]
    exact Or.inr ⟨VErr.reshapeMismatch, rfl⟩
  · rw [if_neg hre]
    have hs : (0 : ℕ) < Nat.sqrt (pos.n - 1) := Nat.sqrt_pos.mpr (by omega)
    have hout : ∀ a : ℕ,
        ((⌊(Nat.sqrt (pos.n - 1) : ℚ) *
          (((a : ℚ) + 1 / 10) / (Nat.sqrt (pos.n - 1) : ℚ))⌋).toNat) = a := by
      intro a
      have h1 : (Nat.sqrt (pos.n - 1) : ℚ) *
          (((a : ℚ) + 1 / 10) / (Nat.sqrt (pos.n - 1) : ℚ)) =
          (a : ℚ) + 1 / 10 := by
        have hne : (Nat.sqrt (pos.n - 1) : ℚ) ≠ 0 := Nat.cast_ne_zero.mpr hs.ne'
        field_simp
        ring
      rw [h1]
      have h2 : ⌊(a : ℚ) + 1 / 10⌋ = (a : ℤ) := by
        rw [Int.floor_eq_iff]
        constructor
        · push_cast; linarith
        · push_cast; linarith
      rw [h2]
      exact Int.toNat_natCast a
    rw [if_neg (by
      push_neg
      exact ⟨(hout (h / ph)).symm, (hout (w / pw)).symm⟩)]
    exact Or.inl ⟨_, rfl, by rw [hout, hout, Nat.add_comm]⟩

/-- Witness for C3 at a concrete input on the general path: one stored patch
(`N = 1`), `1 × 1` patches, a `1 × 2` input (`w ≠ h`), so the interpolating
path runs and the disjunction holds. -/
theorem C3_witness :
    (∃ t, ViT.interpolate_pos_encoding (fun _ _ _ => 0)
        ⟨1, 2, 1, fun _ _ _ => 0⟩ 1 1 2 1 1 2 =
        Except.ok t ∧ t.n = (2 / 1) * (1 / 1) + 1) ∨
    (∃ e, ViT.interpolate_pos_encoding (fun _ _ _ => 0)
        ⟨1, 2, 1, fun _ _ _ => 0⟩ 1 1 2 1 1 2 =
        Except.error e) :=
  C3_theorem (fun _ _ _ => 0) ⟨1, 2, 1, fun _ _ _ => 0⟩ 1 1 2 1 1 2
    (by norm_num) (by norm_num)

/-! ## `TransformerBlock` (src/vit.py lines 72-91) -/

/-- Elementwise `torch` `+` of two same-shape rank-3 tensors. -/
def addT3 (t u : Tensor3) : Tensor3 :=
  ⟨t.b, t.n, t.d, fun i j k => t.data i j k + u.data i j k⟩

/-- A rank-3 map sending every entry to `0`; obtainable from the `attention`
or `mlp` submodule by zeroing their output-projection weights and biases. -/
def zeroLike (t : Tensor3) : Tensor3 := ⟨t.b, t.n, t.d, fun _ _ _ => 0⟩

/-- A rank-3 map doubling every entry; a legal instance of the configurable
`norm_layer` constructor parameter. -/
def doubleT (t : Tensor3) : Tensor3 := ⟨t.b, t.n, t.d, fun i j k => 2 * t.data i j k⟩

/-- The sublayers stored by `TransformerBlock.__init__` (src/vit.py lines
72-84): `norm1` and `norm2` are instances of the configurable `norm_layer`,
`attention` an `Attention` module, `mlp` the five-stage `nn.Sequential`; each
is a sequence-to-sequence module. -/
structure TransformerBlock where
  norm1 : Tensor3 → Tensor3
  attention : Tensor3 → Tensor3
  mlp : Tensor3 → Tensor3
  norm2 : Tensor3 → Tensor3

/-- `TransformerBlock.forward(x)` (src/vit.py lines 86-91): the local `x` is
overwritten step by step — `x = norm1(x)`; `x = x + attention(x)`;
`x = norm2(x)`; `x = x + mlp(x)`; `return x`. -/
def TransformerBlock.forward (blk : TransformerBlock) (x : Tensor3) : Tensor3 :=
  let x1 := blk.norm1 x
  let x2 := addT3 x1 (blk.attention x1)
  let x3 := blk.norm2 x2
  addT3 x3 (blk.mlp x3)

/-! ## Claim C1 -/

/-- C1 counterexample: with `norm1 = id`, `attention = 0`, `mlp = 0` and
`norm2 = double` (all of them realisable sublayers: the attention and MLP
outputs vanish under zero output weights, and `norm_layer` is a constructor
parameter), the block output at the all-ones `(1,1,1)` input is `2`, while
the claimed `t + mlp(norm2 t)` with `t = norm1 x + attention (norm1 x)`
is `1`: the second residual of the code adds the MLP output to the
**normalized** intermediate, not to the intermediate itself. -/
theorem C1_counterexample :
    TransformerBlock.forward ⟨id, zeroLike, zeroLike, doubleT⟩
        ⟨1, 1, 1, fun _ _ _ => 1⟩ ≠
      addT3
        (addT3 (id ⟨1, 1, 1, fun _ _ _ => 1⟩)
          (zeroLike (id ⟨1, 1, 1, fun _ _ _ => 1⟩)))
        (zeroLike (doubleT (addT3 (id ⟨1, 1, 1, fun _ _ _ => 1⟩)
          (zeroLike (id ⟨1, 1, 1, fun _ _ _ => 1⟩))))) := by
  intro h
  have h0 := congrArg (fun u => u.data 0 0 0) h
  simp [TransformerBlock.forward, addT3, zeroLike, doubleT] at h0

/-- C1 (amended): for every input `x`, `TransformerBlock.forward` computes
`output = norm2(t) + mlp(norm2(t))` with `t = norm1(x) + attention(norm1(x))`:
the first residual adds the attention output to the input-after-first-norm,
and the second residual adds the MLP of the normalized intermediate to the
**normalized** intermediate (not to the intermediate itself). -/
theorem C1_theorem (blk : TransformerBlock) (x : Tensor3) :
    blk.forward x =
      addT3 (blk.norm2 (addT3 (blk.norm1 x) (blk.attention (blk.norm1 x))))
        (blk.mlp (blk.norm2 (addT3 (blk.norm1 x)
          (blk.attention (blk.norm1 x))))) := rfl

/-! ## `Attention` (src/vit.py lines 51-70) -/

/-- `nn.Linear` applied position-wise to a rank-3 input: `y = x Wᵀ + b`,
contracting over the input's last axis, with an optional bias. -/
def linearMap (W : ℕ → ℕ → ℚ) (bias : Option (ℕ → ℚ)) (outF : ℕ)
    (x : Tensor3) : Tensor3 :=
  ⟨x.b, x.n, outF, fun bb nn oo =>
    (∑ t ∈ Finset.range x.d, W oo t * x.data bb nn t) +
      (match bias with
        | none => 0
        | some f => f oo)⟩

/-- `nn.Softmax(dim=-1)` on a rank-4 tensor, with the engine exponential
`expQ`: entry `(a,b,c,j)` becomes `exp x_j / ∑_{i < d3} exp x_i`. -/
def softmaxLast (expQ : ℚ → ℚ) (T : Tensor4) : Tensor4 :=
  ⟨T.d0, T.d1, T.d2, T.d3, fun a b c j =>
    expQ (T.data a b c j) / ∑ i ∈ Finset.range T.d3, expQ (T.data a b c i)⟩

/-- `nn.Dropout` on a rank-4 tensor: elementwise multiplication by the
(random, rescaled) mask; the identity mask at inference time. -/
def dropout4 (mask : ℕ → ℕ → ℕ → ℕ → ℚ) (T : Tensor4) : Tensor4 :=
  ⟨T.d0, T.d1, T.d2, T.d3, fun a b c d => mask a b c d * T.data a b c d⟩

/-- `nn.Dropout` on a rank-3 tensor: elementwise multiplication by the mask. -/
def dropout3 (mask : ℕ → ℕ → ℕ → ℚ) (T : Tensor3) : Tensor3 :=
  ⟨T.b, T.n, T.d, fun a b c => mask a b c * T.data a b c⟩

/-- The state stored by `Attention.__init__` (src/vit.py lines 52-60):
`heads`, `dim_head`, the float `scale = dim_head ** -0.5` (engine-supplied),
the output width `dim` of `to_out`, the `to_qkv` weight of shape
`(inner_dim * 3, dim)` with optional `qkv_bias`, and the `to_out` weight of
shape `(dim, inner_dim)` with its bias, where `inner_dim = dim_head * heads`. -/
structure Attention where
  heads : ℕ
  dim_head : ℕ
  scale : ℚ
  dim : ℕ
  Wqkv : ℕ → ℕ → ℚ
  bqkv : Option (ℕ → ℚ)
  Wout : ℕ → ℕ → ℚ
  bout : Option (ℕ → ℚ)

/-- Lines 63-66 of `Attention.forward`: `to_qkv(x)`, `chunk(3, dim=-1)` into
`q, k` slices, `rearrange 'b n (h d) -> b h n d'`, the einsum
`'b h n d, b h m d -> b h n m'` scaled by `scale`, then softmax over the key
axis.  This is the post-softmax attention-weight tensor of shape
`(batch, heads, n, n)`, formed before the attention dropout. -/
def Attention.attnWeights (att : Attention) (expQ : ℚ → ℚ) (x : Tensor3) :
    Tensor4 :=
  let inner := att.dim_head * att.heads
  let qkv := linearMap att.Wqkv att.bqkv (inner * 3) x
  let q : Tensor4 := ⟨x.b, att.heads, x.n, att.dim_head, fun bb hh nn dd =>
    qkv.data bb nn (hh * att.dim_head + dd)⟩
  let k : Tensor4 := ⟨x.b, att.heads, x.n, att.dim_head, fun bb hh nn dd =>
    qkv.data bb nn (inner + (hh * att.dim_head + dd))⟩
  softmaxLast expQ ⟨x.b, att.heads, x.n, x.n, fun bb hh nn mm =>
    (∑ dd ∈ Finset.range att.dim_head,
      q.data bb hh nn dd * k.data bb hh mm dd) * att.scale⟩

/-- `Attention.forward(x)` (src/vit.py lines 62-70): the `v` chunk, dropout
on the attention weights, the einsum `'b h n m, b h m d -> b h n d'`,
`rearrange 'b h n d -> b n (h d)'` and the `to_out` projection followed by
its dropout. -/
def Attention.forward (att : Attention) (expQ : ℚ → ℚ)
    (maskAttn : ℕ → ℕ → ℕ → ℕ → ℚ) (maskOut : ℕ → ℕ → ℕ → ℚ)
    (x : Tensor3) : Tensor3 :=
  let inner := att.dim_head * att.heads
  let qkv := linearMap att.Wqkv att.bqkv (inner * 3) x
  let v : Tensor4 := ⟨x.b, att.heads, x.n, att.dim_head, fun bb hh nn dd =>
    qkv.data bb nn (inner * 2 + (hh * att.dim_head + dd))⟩
  let prod := dropout4 maskAttn (att.attnWeights expQ x)
  let out4 : Tensor4 := ⟨x.b, att.heads, x.n, att.dim_head, fun bb hh nn dd =>
    ∑ mm ∈ Finset.range prod.d3, prod.data bb hh nn mm * v.data bb hh mm dd⟩
  let out3 : Tensor3 := ⟨x.b, x.n, att.heads * att.dim_head, fun bb nn t =>
    out4.data bb (t / att.dim_head) nn (t % att.dim_head)⟩
  dropout3 maskOut (linearMap att.Wout att.bout att.dim out3)

/-- Every row of a rank-4 softmax over the last axis sums to `1`, provided
the exponential is positive and the axis is nonempty. -/
theorem softmaxLast_rowsum (expQ : ℚ → ℚ) (T : Tensor4)
    (hexp : ∀ q, 0 < expQ q) (hd : 0 < T.d3) (a b c : ℕ) :
    ∑ j ∈ Finset.range T.d3, (softmaxLast expQ T).data a b c j = 1 := by
  have hpos : 0 < ∑ i ∈ Finset.range T.d3, expQ (T.data a b c i) :=
    Finset.sum_pos (fun i _ => hexp _) (Finset.nonempty_range_iff.mpr hd.ne')
  simp only [softmaxLast]
  rw [← Finset.sum_div]
  exact div_self hpos.ne'

/-! ## Claim C5 -/

/-- C5: for every input to `Attention.forward` with a nonempty sequence and
every positive engine exponential, the post-softmax attention-weight tensor
(`attnWeights`, the tensor the forward pass then multiplies with `v`) has,
at every batch element, head and query position, weights summing to `1`
across the key axis (the last axis). -/
theorem C5_theorem (att : Attention) (expQ : ℚ → ℚ) (x : Tensor3)
    (bi hi qi : ℕ) (hexp : ∀ q, 0 < expQ q) (hn : 0 < x.n) :
    ∑ j ∈ Finset.range (att.attnWeights expQ x).d3,
      (att.attnWeights expQ x).data bi hi qi j = 1 := by
  unfold Attention.attnWeights
  exact softmaxLast_rowsum expQ _ hexp hn bi hi qi

/-- Witness for C5 at a single-head, single-position, all-zero-weight
attention module with the constant exponential `1`. -/
theorem C5_witness :
    ∑ j ∈ Finset.range
        ((Attention.attnWeights ⟨1, 1, 1, 1, fun _ _ => 0, none, fun _ _ => 0, none⟩
          (fun _ => 1) ⟨1, 1, 1, fun _ _ _ => 0⟩).d3),
      (Attention.attnWeights ⟨1, 1, 1, 1, fun _ _ => 0, none, fun _ _ => 0, none⟩
          (fun _ => 1) ⟨1, 1, 1, fun _ _ _ => 0⟩).data 0 0 0 j = 1 :=
  C5_theorem ⟨1, 1, 1, 1, fun _ _ => 0, none, fun _ _ => 0, none⟩
    (fun _ => 1) ⟨1, 1, 1, fun _ _ _ => 0⟩ 0 0 0 (fun _ => one_pos) Nat.one_pos

/-! ## Patch embedding (src/vit.py lines 93-100 and 130-133) -/

/-- `Rearrange('b c (h ph) (w pw) -> b (h w) (ph pw c)', ph, pw)` (src/vit.py
line 132): patch `(i, j)` of the `H // ph × W // pw` grid appears at sequence
index `i * (W // pw) + j` (row-major) and is flattened with the channel axis
fastest-last (`t = (pi * pw + pj) * c + ch`). -/
def rearrangePatches (ph pw : ℕ) (x : Tensor4) : Tensor3 :=
  ⟨x.d0, (x.d2 / ph) * (x.d3 / pw), ph * pw * x.d1, fun bb s t =>
    x.data bb (t % x.d1)
      ((s / (x.d3 / pw)) * ph + t / (x.d1 * pw))
      ((s % (x.d3 / pw)) * pw + (t / x.d1) % pw)⟩

/-- `nn.Conv2d(channels, dim, kernel_size=(kh, kw), stride=(kh, kw))` applied
to `(b, c, H, W)`: output spatial extents `((H - kh) / kh + 1, (W - kw) / kw + 1)`
(the `torch` formula for stride = kernel), each output entry the kernel-window
contraction plus the bias. -/
def conv2dPatch (W : ℕ → ℕ → ℕ → ℕ → ℚ) (bias : Option (ℕ → ℚ))
    (dim kh kw : ℕ) (x : Tensor4) : Tensor4 :=
  ⟨x.d0, dim, (x.d2 - kh) / kh + 1, (x.d3 - kw) / kw + 1, fun bb d i j =>
    (∑ ch ∈ Finset.range x.d1, ∑ pi ∈ Finset.range kh, ∑ pj ∈ Finset.range kw,
      W d ch pi pj * x.data bb ch (i * kh + pi) (j * kw + pj)) +
      (match bias with
        | none => 0
        | some f => f d)⟩

/-- `ConvProjection.forward(x)` (src/vit.py lines 98-100): the strided
convolution followed by `flatten(2).transpose(1, 2)`, which lays the patch
grid out row-major with the feature axis last. -/
def ConvProjection.forward (W : ℕ → ℕ → ℕ → ℕ → ℚ) (bias : Option (ℕ → ℚ))
    (dim kh kw : ℕ) (x : Tensor4) : Tensor3 :=
  let y := conv2dPatch W bias dim kh kw x
  ⟨y.d0, y.d2 * y.d3, y.d1, fun bb s d => y.data bb d (s / y.d3) (s % y.d3)⟩

/-- Splitting a sum over `range (a * b)` along the decomposition
`t = i * b + j`. -/
theorem sum_range_mul_split (f : ℕ → ℚ) (a b : ℕ) :
    ∑ t ∈ Finset.range (a * b), f t =
      ∑ i ∈ Finset.range a, ∑ j ∈ Finset.range b, f (i * b + j) := by
  induction a with
  | zero => simp
  | succ a ih =>
    rw [Nat.succ_mul, Finset.sum_range_add, ih, Finset.sum_range_succ]

/-- Dividing the flat index `k * c + r` by `c` recovers the block index when
`r < c`. -/
theorem rowmajor_div (k c r : ℕ) (hr : r < c) : (k * c + r) / c = k := by
  rw [Nat.add_comm, Nat.mul_comm, Nat.add_mul_div_left _ _
    (Nat.lt_of_le_of_lt (Nat.zero_le r) hr), Nat.div_eq_of_lt hr]
  omega

/-- Reducing the flat index `k * c + r` modulo `c` recovers the inner index
when `r < c`. -/
theorem rowmajor_mod (k c r : ℕ) (hr : r < c) : (k * c + r) % c = r := by
  rw [Nat.add_comm, Nat.mul_comm, Nat.add_mul_mod_self_left, Nat.mod_eq_of_lt hr]

/-! ## Claim C7 -/

/-- C7: for a `(h·ph) × (w·pw)` input image with `c` channels, the linear
patch-embedding variant (`Rearrange` then `nn.Linear`) and the convolutional
variant (`ConvProjection`) produce outputs of identical shape
`(batch, h·w, dim)`; and with matched weights (`conv kernel entry
`(d, ch, pi, pj)` equal to linear weight column `(pi·pw + pj)·c + ch`, same
bias) the two outputs agree entrywise, each placing at sequence index
`i·w + j` exactly the projection of patch `(i, j)` — row-major patch order
for both, making them drop-in substitutable. -/
theorem C7_theorem (c h w ph pw dimOut : ℕ) (img : Tensor4)
    (linW : ℕ → ℕ → ℚ) (convW : ℕ → ℕ → ℕ → ℕ → ℚ) (bias : Option (ℕ → ℚ))
    (bb i j f : ℕ)
    (hc : img.d1 = c) (hH : img.d2 = h * ph) (hW : img.d3 = w * pw)
    (hc0 : 0 < c) (hph : 0 < ph) (hpw : 0 < pw) (hh : 0 < h) (hw : 0 < w)
    (hi : i < h) (hj : j < w)
    (hmatch : ∀ d ch pi pj, ch < c → pi < ph → pj < pw →
      convW d ch pi pj = linW d ((pi * pw + pj) * c + ch)) :
    ((linearMap linW bias dimOut (rearrangePatches ph pw img)).b =
        (ConvProjection.forward convW bias dimOut ph pw img).b ∧
      (linearMap linW bias dimOut (rearrangePatches ph pw img)).n =
        (ConvProjection.forward convW bias dimOut ph pw img).n ∧
      (linearMap linW bias dimOut (rearrangePatches ph pw img)).d =
        (ConvProjection.forward convW bias dimOut ph pw img).d ∧
      (linearMap linW bias dimOut (rearrangePatches ph pw img)).n = h * w ∧
      (linearMap linW bias dimOut (rearrangePatches ph pw img)).d = dimOut) ∧
    (linearMap linW bias dimOut (rearrangePatches ph pw img)).data
        bb (i * w + j) f =
      (ConvProjection.forward convW bias dimOut ph pw img).data
        bb (i * w + j) f ∧
    (ConvProjection.forward convW bias dimOut ph pw img).data
        bb (i * w + j) f =
      (∑ ch ∈ Finset.range c, ∑ pi ∈ Finset.range ph, ∑ pj ∈ Finset.range pw,
        convW f ch pi pj * img.data bb ch (i * ph + pi) (j * pw + pj)) +
        (match bias with
          | none => 0
          | some g => g f) := by
  subst hc
  have hd2 : img.d2 / ph = h := by rw [hH]; exact Nat.mul_div_cancel _ hph
  have hd3 : img.d3 / pw = w := by rw [hW]; exact Nat.mul_div_cancel _ hpw
  have hcd2 : (img.d2 - ph) / ph + 1 = h := by
    rw [hH, (by rw [Nat.sub_one_mul] : h * ph - ph = (h - 1) * ph),
      Nat.mul_div_cancel _ hph]
    omega
  have hcd3 : (img.d3 - pw) / pw + 1 = w := by
    rw [hW, (by rw [Nat.sub_one_mul] : w * pw - pw = (w - 1) * pw),
      Nat.mul_div_cancel _ hpw]
    omega
  have hsdiv : (i * w + j) / w = i := rowmajor_div i w j hj
  have hsmod : (i * w + j) % w = j := rowmajor_mod i w j hj
  have hcval : (ConvProjection.forward convW bias dimOut ph pw img).data
      bb (i * w + j) f =
      (∑ ch ∈ Finset.range img.d1, ∑ pi ∈ Finset.range ph,
        ∑ pj ∈ Finset.range pw,
        convW f ch pi pj * img.data bb ch (i * ph + pi) (j * pw + pj)) +
        (match bias with
          | none => 0
          | some g => g f) := by
    simp only [ConvProjection.forward, conv2dPatch, hcd3, hsdiv, hsmod]
  refine ⟨⟨rfl, ?_, rfl, ?_, rfl⟩, ?_, hcval⟩
  · simp only [linearMap, rearrangePatches, ConvProjection.forward,
      conv2dPatch, hd2, hd3, hcd2, hcd3]
  · simp only [linearMap, rearrangePatches, hd2, hd3]
  · rw [hcval]
    simp only [linearMap, rearrangePatches, hd3, hsdiv, hsmod]
    congr 1
    rw [sum_range_mul_split _ (ph * pw) img.d1, sum_range_mul_split _ ph pw]
    have hterm : ∀ pi ∈ Finset.range ph, ∀ pj ∈ Finset.range pw,
        ∀ ch ∈ Finset.range img.d1,
        linW f ((pi * pw + pj) * img.d1 + ch) *
          img.data bb (((pi * pw + pj) * img.d1 + ch) % img.d1)
            (i * ph + ((pi * pw + pj) * img.d1 + ch) / (img.d1 * pw))
            (j * pw + ((pi * pw + pj) * img.d1 + ch) / img.d1 % pw) =
        convW f ch pi pj * img.data bb ch (i * ph + pi) (j * pw + pj) := by
      intro pi hpi pj hpj ch hch
      have hch1 : ch < img.d1 := Finset.mem_range.mp hch
      have hpi1 : pi < ph := Finset.mem_range.mp hpi
      have hpj1 : pj < pw := Finset.mem_range.mp hpj
      have ht1 : ((pi * pw + pj) * img.d1 + ch) % img.d1 = ch :=
        rowmajor_mod _ _ _ hch1
      have ht2 : ((pi * pw + pj) * img.d1 + ch) / img.d1 = pi * pw + pj :=
        rowmajor_div _ _ _ hch1
      have ht3 : ((pi * pw + pj) * img.d1 + ch) / (img.d1 * pw) = pi := by
        rw [← Nat.div_div_eq_div_mul, ht2, rowmajor_div pi pw pj hpj1]
      rw [hmatch f ch pi pj hch1 hpi1 hpj1, ht1, ht2, ht3,
        rowmajor_mod pi pw pj hpj1]
    calc
      ∑ pi ∈ Finset.range ph, ∑ pj ∈ Finset.range pw,
          ∑ ch ∈ Finset.range img.d1,
          linW f ((pi * pw + pj) * img.d1 + ch) *
            img.data bb (((pi * pw + pj) * img.d1 + ch) % img.d1)
              (i * ph + ((pi * pw + pj) * img.d1 + ch) / (img.d1 * pw))
              (j * pw + ((pi * pw + pj) * img.d1 + ch) / img.d1 % pw) =
          ∑ pi ∈ Finset.range ph, ∑ pj ∈ Finset.range pw,
          ∑ ch ∈ Finset.range img.d1,
          convW f ch pi pj * img.data bb ch (i * ph + pi) (j * pw + pj) := by
        refine Finset.sum_congr rfl fun pi hpi => ?_
        refine Finset.sum_congr rfl fun pj hpj => ?_
        exact Finset.sum_congr rfl fun ch hch => hterm pi hpi pj hpj ch hch
      _ = ∑ pi ∈ Finset.range ph, ∑ ch ∈ Finset.range img.d1,
          ∑ pj ∈ Finset.range pw,
          convW f ch pi pj * img.data bb ch (i * ph + pi) (j * pw + pj) :=
        Finset.sum_congr rfl fun pi _ => Finset.sum_comm
      _ = ∑ ch ∈ Finset.range img.d1, ∑ pi ∈ Finset.range ph,
          ∑ pj ∈ Finset.range pw,
          convW f ch pi pj * img.data bb ch (i * ph + pi) (j * pw + pj) :=
        Finset.sum_comm

/-- A `1 × 1 × 1 × 1` all-ones image. -/
def imgOne : Tensor4 := ⟨1, 1, 1, 1, fun _ _ _ _ => 1⟩

/-- An all-ones rank-2 weight. -/
def oneW2 : ℕ → ℕ → ℚ := fun _ _ => 1

/-- An all-ones rank-4 weight. -/
def oneW4 : ℕ → ℕ → ℕ → ℕ → ℚ := fun _ _ _ _ => 1

/-- Witness for C7 at the one-pixel configuration
`c = h = w = ph = pw = dim = 1` with matched all-ones weights and no bias. -/
theorem C7_witness :
    ((linearMap oneW2 none 1 (rearrangePatches 1 1 imgOne)).b =
        (ConvProjection.forward oneW4 none 1 1 1 imgOne).b ∧
      (linearMap oneW2 none 1 (rearrangePatches 1 1 imgOne)).n =
        (ConvProjection.forward oneW4 none 1 1 1 imgOne).n ∧
      (linearMap oneW2 none 1 (rearrangePatches 1 1 imgOne)).d =
        (ConvProjection.forward oneW4 none 1 1 1 imgOne).d ∧
      (linearMap oneW2 none 1 (rearrangePatches 1 1 imgOne)).n = 1 * 1 ∧
      (linearMap oneW2 none 1 (rearrangePatches 1 1 imgOne)).d = 1) ∧
    (linearMap oneW2 none 1 (rearrangePatches 1 1 imgOne)).data 0 (0 * 1 + 0) 0 =
      (ConvProjection.forward oneW4 none 1 1 1 imgOne).data 0 (0 * 1 + 0) 0 ∧
    (ConvProjection.forward oneW4 none 1 1 1 imgOne).data 0 (0 * 1 + 0) 0 =
      (∑ ch ∈ Finset.range 1, ∑ pi ∈ Finset.range 1, ∑ pj ∈ Finset.range 1,
        oneW4 0 ch pi pj * imgOne.data 0 ch (0 * 1 + pi) (0 * 1 + pj)) +
        (match (none : Option (ℕ → ℚ)) with
          | none => 0
          | some g => g 0) :=
  C7_theorem 1 1 1 1 1 1 imgOne oneW2 oneW4 none 0 0 0 0 rfl rfl rfl
    Nat.one_pos Nat.one_pos Nat.one_pos Nat.one_pos Nat.one_pos
    Nat.zero_lt_one Nat.zero_lt_one (fun _ _ _ _ _ _ _ => rfl)

/-! ## `ViT` construction and forward pass (src/vit.py lines 102-186) -/

/-- The patch-embedding module chosen by `ViT.__init__` (src/vit.py lines
130-133): for `projection == 'linear'` the `nn.Sequential` of `Rearrange` and
`nn.Linear(patch_dim, dim)`, otherwise a `ConvProjection(channels, dim,
patch_size)`; each case carries its weight and optional bias. -/
inductive PatchProj where
  | linear (W : ℕ → ℕ → ℚ) (bias : Option (ℕ → ℚ))
  | conv (W : ℕ → ℕ → ℕ → ℕ → ℚ) (bias : Option (ℕ → ℚ))

/-- Applying the stored patch-embedding module (`self.patch_to_embedding(x)`,
src/vit.py line 176): the linear case is `Rearrange` then `nn.Linear`, the
convolutional case is `ConvProjection.forward`; both receive the constructor's
`dim` and patch extents. -/
def PatchProj.forward (p : PatchProj) (dim ph pw : ℕ) (x : Tensor4) : Tensor3 :=
  match p with
  | PatchProj.linear W bias => linearMap W bias dim (rearrangePatches ph pw x)
  | PatchProj.conv W bias => ConvProjection.forward W bias dim ph pw x

/-- The state stored by `ViT.__init__` (src/vit.py lines 106-140):
`self.patch_height`, `self.patch_width`, the embedding width `dim`,
`self.patch_to_embedding`, `self.pos_embedding` of shape
`(1, num_patches + 1, dim)`, `self.cls_token`, `self.layers`, `self.pool`
and `self.norm` (an instance of the configurable `norm_layer`). -/
structure ViT where
  patch_height : ℕ
  patch_width : ℕ
  dim : ℕ
  patch_to_embedding : PatchProj
  pos_embedding : Tensor3
  cls_token : ℕ → ℚ
  layers : List TransformerBlock
  pool : Bool
  norm : Tensor3 → Tensor3

/-- `torch.cat((cls_tokens, x), dim=1)` with
`cls_tokens = self.cls_token.expand(b, -1, -1)` (src/vit.py lines 178-179). -/
def catCls (cls : ℕ → ℚ) (pe : Tensor3) : Tensor3 :=
  ⟨pe.b, pe.n + 1, pe.d, fun bb nn dd =>
    if nn = 0 then cls dd else pe.data bb (nn - 1) dd⟩

/-- `x += pos` (src/vit.py line 180): the stored `(1, L, dim)` positional
tensor broadcasts over the batch axis; `torch` raises unless the sequence and
feature extents match (degenerate size-1 broadcasts of those axes are not
modelled). -/
def addPos (x pos : Tensor3) : Except VErr Tensor3 :=
  if pos.n = x.n ∧ pos.d = x.d then
    Except.ok ⟨x.b, x.n, x.d, fun bb nn dd => x.data bb nn dd + pos.data 0 nn dd⟩
  else Except.error VErr.broadcastMismatch

/-- `x.mean(dim=1)` (src/vit.py line 185). -/
def meanDim1 (t : Tensor3) : Tensor2 :=
  ⟨t.b, t.d, fun bb dd => (∑ nn ∈ Finset.range t.n, t.data bb nn dd) / (t.n : ℚ)⟩

/-- `x[:, 0]` (src/vit.py line 185). -/
def selectCls (t : Tensor3) : Tensor2 := ⟨t.b, t.d, fun bb dd => t.data bb 0 dd⟩

/-- `ViT.forward` up to and including the optional final norm (src/vit.py
lines 174-184): unpack `b, _, w, h = x.shape` (so `w` is axis 2 and `h` axis
3), patch-embed, prepend the class token, add the interpolated positional
encoding, apply the embedding dropout and the transformer layers in order,
then the final norm if `norm` is set. -/
def ViT.forwardSeq (v : ViT) (bicubicVal : ℕ → ℕ → ℕ → ℚ)
    (embMask : ℕ → ℕ → ℕ → ℚ) (x : Tensor4) (norm : Bool) :
    Except VErr Tensor3 :=
  let w := x.d2
  let h := x.d3
  let xc := catCls v.cls_token
    (v.patch_to_embedding.forward v.dim v.patch_height v.patch_width x)
  match ViT.interpolate_pos_encoding bicubicVal v.pos_embedding
      v.patch_height v.patch_width xc.n xc.d w h with
  | Except.error e => Except.error e
  | Except.ok pos =>
    match addPos xc pos with
    | Except.error e => Except.error e
    | Except.ok xp =>
      let xl := v.layers.foldl (fun acc blk => blk.forward acc)
        (dropout3 embMask xp)
      Except.ok (if norm then v.norm xl else xl)

/-- `ViT.forward(x, norm=True, mixup=None, lbda=None, perm=None)` (src/vit.py
lines 174-186): the sequence computation followed by
`features = x.mean(dim=1) if self.pool else x[:, 0]`.  The `mixup`, `lbda`
and `perm` parameters are accepted and never read. -/
def ViT.forward (v : ViT) (bicubicVal : ℕ → ℕ → ℕ → ℚ)
    (embMask : ℕ → ℕ → ℕ → ℚ) (x : Tensor4) (norm : Bool)
    (mixup lbda : Option ℚ) (perm : Option (List ℕ)) : Except VErr Tensor2 :=
  (v.forwardSeq bicubicVal embMask x norm).map
    (fun y => if v.pool then meanDim1 y else selectCls y)

/-- Both patch-embedding variants give a sequence whose batch extent is the
image's and whose feature extent is the constructor's `dim`. -/
theorem PatchProj.forward_shape (p : PatchProj) (dim ph pw : ℕ) (x : Tensor4) :
    (p.forward dim ph pw x).b = x.d0 ∧ (p.forward dim ph pw x).d = dim := by
  cases p <;> exact ⟨rfl, rfl⟩

/-- Folding shape-preserving transformer blocks preserves all three extents. -/
theorem foldl_blocks_shape (L : List TransformerBlock)
    (hL : ∀ blk ∈ L, ∀ t : Tensor3, (blk.forward t).b = t.b ∧
      (blk.forward t).n = t.n ∧ (blk.forward t).d = t.d) (t : Tensor3) :
    (L.foldl (fun acc blk => blk.forward acc) t).b = t.b ∧
    (L.foldl (fun acc blk => blk.forward acc) t).n = t.n ∧
    (L.foldl (fun acc blk => blk.forward acc) t).d = t.d := by
  induction L generalizing t with
  | nil => exact ⟨rfl, rfl, rfl⟩
  | cons blk L ih =>
    have hhead := hL blk (List.mem_cons_self blk L) t
    have htail := ih (fun b hb => hL b (List.mem_cons_of_mem blk hb))
      (blk.forward t)
    simp only [List.foldl_cons]
    exact ⟨htail.1.trans hhead.1, htail.2.1.trans hhead.2.1,
      htail.2.2.trans hhead.2.2⟩

/-- A successful `forwardSeq` yields a sequence whose batch extent is the
input's and whose feature extent is the model's `dim`, provided the layers
and the final norm preserve shapes. -/
theorem ViT.forwardSeq_shape (v : ViT) (bicubicVal : ℕ → ℕ → ℕ → ℚ)
    (embMask : ℕ → ℕ → ℕ → ℚ) (x : Tensor4) (norm : Bool) (y : Tensor3)
    (hlayers : ∀ blk ∈ v.layers, ∀ t : Tensor3, (blk.forward t).b = t.b ∧
      (blk.forward t).n = t.n ∧ (blk.forward t).d = t.d)
    (hnorm : ∀ t : Tensor3, (v.norm t).b = t.b ∧ (v.norm t).n = t.n ∧
      (v.norm t).d = t.d)
    (hy : v.forwardSeq bicubicVal embMask x norm = Except.ok y) :
    y.b = x.d0 ∧ y.d = v.dim := by
  simp only [ViT.forwardSeq] at hy
  cases hint : ViT.interpolate_pos_encoding bicubicVal v.pos_embedding
      v.patch_height v.patch_width
      (catCls v.cls_token
        (v.patch_to_embedding.forward v.dim v.patch_height v.patch_width x)).n
      (catCls v.cls_token
        (v.patch_to_embedding.forward v.dim v.patch_height v.patch_width x)).d
      x.d2 x.d3 with
  | error e => rw [hint] at hy; exact absurd hy (by simp)
  | ok pos =>
    rw [hint] at hy
    dsimp only at hy
    cases haddp : addPos (catCls v.cls_token
        (v.patch_to_embedding.forward v.dim v.patch_height v.patch_width x))
        pos with
    | error e => rw [haddp] at hy; exact absurd hy (by simp)
    | ok xp =>
      rw [haddp] at hy
      replace hy := Except.ok.inj hy
      subst hy
      have hxp : xp.b = (catCls v.cls_token
          (v.patch_to_embedding.forward v.dim v.patch_height
            v.patch_width x)).b ∧
          xp.d = (catCls v.cls_token
          (v.patch_to_embedding.forward v.dim v.patch_height
            v.patch_width x)).d := by
        unfold addPos at haddp
        split at haddp
        · replace haddp := Except.ok.inj haddp
          subst haddp
          exact ⟨rfl, rfl⟩
        · exact Except.noConfusion haddp
      have hshape := PatchProj.forward_shape v.patch_to_embedding v.dim
        v.patch_height v.patch_width x
      have hfold := foldl_blocks_shape v.layers hlayers (dropout3 embMask xp)
      by_cases hn : norm = true
      · rw [if_pos hn]
        have hnm := hnorm (v.layers.foldl (fun acc blk => blk.forward acc)
          (dropout3 embMask xp))
        exact ⟨((hnm.1.trans hfold.1).trans hxp.1).trans hshape.1,
          ((hnm.2.2.trans hfold.2.2).trans hxp.2).trans hshape.2⟩
      · rw [if_neg hn]
        exact ⟨(hfold.1.trans hxp.1).trans hshape.1,
          (hfold.2.2.trans hxp.2).trans hshape.2⟩

/-! ## Claim C4 -/

/-- C4 counterexample: a valid configuration — `image_size = (2, 1)`,
`patch_size = 1` (divisible extents, `N = 2` stored patches, zero weights,
linear projection, class-token pooling) — together with a `2 × 2` input
image makes `ViT.forward` abort inside positional interpolation (the stored
patch count `2` is not a perfect square) instead of returning any
`(batch, dim)` tensor. -/
theorem C4_counterexample :
    ViT.forward ⟨1, 1, 1, PatchProj.linear (fun _ _ => 0) none,
        ⟨1, 3, 1, fun _ _ _ => 0⟩, fun _ => 0, [], false, id⟩
      (fun _ _ _ => 0) (fun _ _ _ => 0) ⟨1, 1, 2, 2, fun _ _ _ _ => 0⟩
      true none none none = Except.error VErr.reshapeMismatch := by
  simp [ViT.forward, ViT.forwardSeq, ViT.interpolate_pos_encoding, catCls,
    PatchProj.forward, linearMap, rearrangePatches, natSqrt_two_eq_one,
    Except.map]

/-- C4 (amended): for every configuration whose transformer blocks and final
norm preserve tensor shapes, and every input batch, `ViT.forward` either
aborts (as the positional-interpolation step can) or returns the pooled
feature tensor of shape `(batch, dim)` — the mean over all sequence
positions when mean pooling is configured (`pool = true`), and the vector at
sequence position 0 (the class-token position) otherwise. -/
theorem C4_theorem (v : ViT) (bicubicVal : ℕ → ℕ → ℕ → ℚ)
    (embMask : ℕ → ℕ → ℕ → ℚ) (x : Tensor4) (norm : Bool)
    (mixup lbda : Option ℚ) (perm : Option (List ℕ))
    (hlayers : ∀ blk ∈ v.layers, ∀ t : Tensor3, (blk.forward t).b = t.b ∧
      (blk.forward t).n = t.n ∧ (blk.forward t).d = t.d)
    (hnorm : ∀ t : Tensor3, (v.norm t).b = t.b ∧ (v.norm t).n = t.n ∧
      (v.norm t).d = t.d) :
    (∃ e, ViT.forward v bicubicVal embMask x norm mixup lbda perm =
        Except.error e) ∨
    (∃ y, v.forwardSeq bicubicVal embMask x norm = Except.ok y ∧
      ViT.forward v bicubicVal embMask x norm mixup lbda perm =
        Except.ok (if v.pool then meanDim1 y else selectCls y) ∧
      y.b = x.d0 ∧ y.d = v.dim ∧
      (if v.pool then meanDim1 y else selectCls y).b = x.d0 ∧
      (if v.pool then meanDim1 y else selectCls y).d = v.dim) := by
  cases hseq : v.forwardSeq bicubicVal embMask x norm with
  | error e =>
    left
    exact ⟨e, by simp only [ViT.forward, hseq, Except.map]⟩
  | ok y =>
    right
    have hsh := ViT.forwardSeq_shape v bicubicVal embMask x norm y
      hlayers hnorm hseq
    have hifb : (if v.pool then meanDim1 y else selectCls y).b = x.d0 := by
      by_cases hp : v.pool = true
      · rw [if_pos hp]; exact hsh.1
      · rw [if_neg hp]; exact hsh.1
    have hifd : (if v.pool then meanDim1 y else selectCls y).d = v.dim := by
      by_cases hp : v.pool = true
      · rw [if_pos hp]; exact hsh.2
      · rw [if_neg hp]; exact hsh.2
    exact ⟨y, rfl, by simp only [ViT.forward, hseq, Except.map],
      hsh.1, hsh.2, hifb, hifd⟩

/-- A minimal valid model: `1 × 1` image, `1 × 1` patches, one stored patch,
zero weights, no layers, class-token pooling, identity norm. -/
def vitTiny : ViT :=
  ⟨1, 1, 1, PatchProj.linear (fun _ _ => 0) none,
    ⟨1, 2, 1, fun _ _ _ => 0⟩, fun _ => 0, [], false, id⟩

/-- A `1 × 1 × 1 × 1` all-zero input image. -/
def imgTiny : Tensor4 := ⟨1, 1, 1, 1, fun _ _ _ _ => 0⟩

/-- Witness for C4 at `vitTiny` and a training-resolution input, where the
fast interpolation path succeeds. -/
theorem C4_witness :
    (∃ e, ViT.forward vitTiny (fun _ _ _ => 0) (fun _ _ _ => 1) imgTiny
        true none none none = Except.error e) ∨
    (∃ y, vitTiny.forwardSeq (fun _ _ _ => 0) (fun _ _ _ => 1) imgTiny true =
        Except.ok y ∧
      ViT.forward vitTiny (fun _ _ _ => 0) (fun _ _ _ => 1) imgTiny
          true none none none =
        Except.ok (if vitTiny.pool then meanDim1 y else selectCls y) ∧
      y.b = imgTiny.d0 ∧ y.d = vitTiny.dim ∧
      (if vitTiny.pool then meanDim1 y else selectCls y).b = imgTiny.d0 ∧
      (if vitTiny.pool then meanDim1 y else selectCls y).d = vitTiny.dim) :=
  C4_theorem vitTiny (fun _ _ _ => 0) (fun _ _ _ => 1) imgTiny true
    none none none (fun blk hb => absurd hb (List.not_mem_nil blk))
    (fun t => ⟨rfl, rfl, rfl⟩)

/-! ## Claim C8 -/

/-- C8: two invocations of `ViT.forward` on the same model, engine
parameters, input and `norm` flag that differ only in the `mixup`, `lbda`
and `perm` arguments produce identical results; the three parameters are
accepted for every value (`none` included) and are never read by the
forward computation, which is a total function, so neither invocation can
fail where the other succeeds. -/
theorem C8_theorem (v : ViT) (bicubicVal : ℕ → ℕ → ℕ → ℚ)
    (embMask : ℕ → ℕ → ℕ → ℚ) (x : Tensor4) (norm : Bool)
    (m1 l1 : Option ℚ) (p1 : Option (List ℕ)) (m2 l2 : Option ℚ)
    (p2 : Option (List ℕ)) :
    ViT.forward v bicubicVal embMask x norm m1 l1 p1 =
      ViT.forward v bicubicVal embMask x norm m2 l2 p2 := rfl
